import Mathlib

/-!
Verification development for the BasalGuard agent firewall.

The Python modules `basalguard/core/agent_firewall.py`,
`basalguard/security/network.py` and `basalguard/tools/advanced_file_ops.py`
are shallowly embedded below.  Python exceptions are modelled with an
`Except` monad carrying an exception-class tag so that the subclass-based
`except` dispatch of the source is reproduced exactly.  The external
TaipanStack primitives (sanitizer, traversal guard, injection guard, safe
process runner), DNS resolution and the HTTP client are out of scope of the
repository and are supplied as oracle functions in an `Env` record, with
their exception contract taken from the design document.  The filesystem is
explicit state.  Logging calls of the source have no observable effect and
are dropped.  Floating-point fields (command duration) are omitted.
-/

namespace BasalGuard

/-- Python exception classes appearing in the embedded code.  The class
`networkSecurityError` is declared in `basalguard/security/network.py` as a
subclass of the TaipanStack `SecurityError`; `gaierror` is the socket DNS
failure (a subclass of `OSError`); `timeoutException` is the httpx timeout
(a subclass of the httpx `HTTPError`).  `SecurityError` itself is modelled
from the spec: TaipanStack guards raise a structured security error, which
we model as a direct `Exception` subclass. -/
inductive ExcClass where
  | exception
  | securityError
  | networkSecurityError
  | valueError
  | osError
  | gaierror
  | fileNotFoundError
  | httpError
  | timeoutException
deriving DecidableEq, Repr

/-- The ancestor chain (the class itself first) of each exception class,
mirroring the Python class hierarchy. -/
def classAncestors : ExcClass → List ExcClass
  | .exception => [.exception]
  | .securityError => [.securityError, .exception]
  | .networkSecurityError => [.networkSecurityError, .securityError, .exception]
  | .valueError => [.valueError, .exception]
  | .osError => [.osError, .exception]
  | .gaierror => [.gaierror, .osError, .exception]
  | .fileNotFoundError => [.fileNotFoundError, .osError, .exception]
  | .httpError => [.httpError, .exception]
  | .timeoutException => [.timeoutException, .httpError, .exception]

/-- Python `except H` semantics: a handler for class `handler` catches a
raised exception of class `raised` iff `handler` is `raised` or one of its
ancestors. -/
def catches (handler raised : ExcClass) : Bool :=
  (classAncestors raised).contains handler

/-- A raised Python exception: its class, message, and (for the structured
security errors of the spec) the guard name and offending value. -/
structure PyExc where
  cls : ExcClass
  msg : String
  guard_name : String := ""
  value : Option String := none
deriving DecidableEq, Repr

/-- A `SecurityError` raised by the network guard
(`basalguard/security/network.py` raises `SecurityError` with
`guard_name="network_guard"`). -/
def secErr (msg : String) (v : Option String) : PyExc :=
  { cls := .securityError, msg := msg, guard_name := "network_guard", value := v }

/-- Python values that can appear in an intent parameter mapping. -/
inductive PyVal where
  | vstr (s : String)
  | vint (n : Int)
  | vbool (b : Bool)
  | vnone
  | vlist (l : List PyVal)

mutual
/-- Python `repr` on the modelled value grammar (string escaping inside
`repr` of a string is not modelled; no claim depends on it). -/
def pyRepr : PyVal → String
  | .vstr s => "\x27" ++ s ++ "\x27"
  | .vint n => toString n
  | .vbool b => if b then "True" else "False"
  | .vnone => "None"
  | .vlist l => "[" ++ pyReprList l ++ "]"

/-- Comma-separated `repr` of list elements, as Python prints a list. -/
def pyReprList : List PyVal → String
  | [] => ""
  | [x] => pyRepr x
  | x :: y :: xs => pyRepr x ++ ", " ++ pyReprList (y :: xs)
end

/-- Python `str()` coercion: identity on strings, `repr`-like on the rest
(`str(5) = "5"`, `str(None) = "None"`, `str(True) = "True"`). -/
def pyStr : PyVal → String
  | .vstr s => s
  | v => pyRepr v

/-- Python `dict.get(k)`: `None` when the key is absent. -/
def pget (params : List (String × PyVal)) (k : String) : PyVal :=
  match params.lookup k with
  | some v => v
  | none => .vnone

/-- Python `dict.get(k, d)`: default `d` when the key is absent. -/
def pgetD (params : List (String × PyVal)) (k : String) (d : PyVal) : PyVal :=
  match params.lookup k with
  | some v => v
  | none => d

/-- Python `x is None` on a modelled value. -/
def isVNone : PyVal → Bool
  | .vnone => true
  | _ => false

/-- Python `isinstance(x, str)` on a modelled value. -/
def isVStr : PyVal → Bool
  | .vstr _ => true
  | _ => false

/-- Python `a or b` for an optional string `a` with fallback `b`
(`None` and the empty string are falsy). -/
def pyOrStr (a : Option String) (b : String) : String :=
  match a with
  | some s => if s = "" then b else s
  | none => b

/-- The three-way result tag of every firewall result dict. -/
inductive Status where
  | success
  | blocked
  | error
deriving DecidableEq, Repr

/-- The structured result dict returned by the firewall methods.  Absent
keys are `none`.  The float `duration_seconds` key of command results is
omitted from the model. -/
structure FwResult where
  status : Status
  action : Option String := none
  reason : Option String := none
  violator : Option String := none
  path : Option String := none
  bytes_written : Option Nat := none
  content : Option String := none
  size_bytes : Option Nat := none
  url : Option String := none
  method : Option String := none
  status_code : Option Nat := none
  returncode : Option Int := none
  stdout : Option String := none
  stderr : Option String := none
  command : Option (List PyVal) := none

/-- An httpx response as consumed by `safe_web_request`: the status code and
the decoded text body. -/
structure HttpResponse where
  status_code : Nat
  text : String
deriving DecidableEq, Repr

/-- The fields of a TaipanStack `SafeCommandResult` used by the firewall
(the float duration field is omitted). -/
structure CmdResult where
  returncode : Int
  stdout : String
  stderr : String
deriving DecidableEq, Repr

/-- Oracle record for everything outside the repository: the TaipanStack
security primitives (spec section 6), DNS resolution (`socket.getaddrinfo`,
reduced to the list of resolved address strings), and the httpx client.
Oracles either return a value or raise a modelled exception. -/
structure Env where
  sanitize_filename : String → String
  guard_path_traversal : String → Except PyExc String
  guard_command_injection : List PyVal → List String → Except PyExc Unit
  run_safe_command : List PyVal → Except PyExc CmdResult
  getaddrinfo : String → Except PyExc (List String)
  httpRequest : String → String → Except PyExc HttpResponse

-- ── Constants of agent_firewall.py ─────────────────────────────────────

/-- `DEFAULT_COMMAND_ALLOWLIST` from agent_firewall.py. -/
def DEFAULT_COMMAND_ALLOWLIST : List String :=
  ["git", "python", "python3", "pip", "pip3", "ls", "cat", "echo", "mkdir"]

/-- `_MAX_READ_SIZE_BYTES` from agent_firewall.py (1 MiB). -/
def _MAX_READ_SIZE_BYTES : Nat := 1048576

/-- `_MAX_RESPONSE_BODY` from agent_firewall.py (50 KiB). -/
def _MAX_RESPONSE_BODY : Nat := 50 * 1024

/-- `_VALID_ACTIONS` from agent_firewall.py: the frozenset of action names
understood by `validate_intent`. -/
def _VALID_ACTIONS : List String :=
  ["write_file", "read_file", "execute_command", "web_request"]

-- ── Character-level string helpers ─────────────────────────────────────
-- The stdlib string functions of the host language are reimplemented over
-- the character list so that every definition evaluates by kernel
-- reduction (ASCII-faithful, which covers all inputs the guards compare).

/-- Python `str.lower()` (character-wise). -/
def strLower (s : String) : String := ⟨s.data.map Char.toLower⟩

/-- Python `str.upper()` (character-wise). -/
def strUpper (s : String) : String := ⟨s.data.map Char.toUpper⟩

/-- Longest prefix of characters satisfying the predicate. -/
def strTakeWhileC (p : Char → Bool) (s : String) : String :=
  ⟨s.data.takeWhile p⟩

/-- Drop the first `n` characters. -/
def strDropC (s : String) (n : Nat) : String := ⟨s.data.drop n⟩

/-- Prefix test. -/
def strStartsWith (s pre : String) : Bool := pre.data.isPrefixOf s.data

/-- Fuelled split on a non-empty separator (leftmost, non-overlapping),
with the accumulator holding the current piece reversed. -/
def splitSepAux (sep : List Char) : Nat → List Char → List Char → List (List Char)
  | 0, acc, l => [acc.reverse ++ l]
  | _ + 1, acc, [] => [acc.reverse]
  | fuel + 1, acc, c :: rest =>
    if sep.isPrefixOf (c :: rest) then
      acc.reverse :: splitSepAux sep fuel [] ((c :: rest).drop sep.length)
    else splitSepAux sep fuel (c :: acc) rest

/-- Split a string on a separator substring, as Python `str.split(sep)`
behaves for a non-empty separator. -/
def strSplitOn (s sep : String) : List String :=
  if sep.data.isEmpty then [s]
  else (splitSepAux sep.data (s.data.length + 1) [] s.data).map
    (fun l => (⟨l⟩ : String))

-- ── URL parsing (stdlib urlparse, modelled) ────────────────────────────

/-- The two fields of a Python `urlparse` result that `validate_url` reads. -/
structure ParsedUrl where
  scheme : String
  hostname : Option String
deriving DecidableEq, Repr

/-- Modelled from the stdlib: `urllib.parse.urlparse` restricted to the two
fields the code reads, for URLs of the shape `scheme://netloc/...`.  The
scheme and hostname are lowercased; a netloc of the form `[v6]` keeps the
bracket content; a `user@host` userinfo part is stripped; a `:port` suffix
is stripped; an input without `://` yields an empty scheme and no
hostname. -/
def urlparse (url : String) : ParsedUrl :=
  match strSplitOn url "://" with
  | [] => { scheme := "", hostname := none }
  | [_] => { scheme := "", hostname := none }
  | schemePart :: rest =>
    let afterScheme := String.intercalate "://" rest
    let netloc := strTakeWhileC
      (fun c => !(c == '/') && !(c == '?') && !(c == '#')) afterScheme
    let hostPort :=
      match strSplitOn netloc "@" with
      | [] => netloc
      | parts => parts.getLastD netloc
    let host :=
      if strStartsWith hostPort "[" then
        strLower (strTakeWhileC (fun c => !(c == ']')) (strDropC hostPort 1))
      else
        strLower (strTakeWhileC (fun c => !(c == ':')) hostPort)
    { scheme := strLower schemePart
      hostname := if host = "" then none else some host }

-- ── IP addresses (stdlib ipaddress, modelled from the spec) ────────────

/-- An IP address as classified by the network guard: an IPv4 quad, or the
IPv6 loopback (the only IPv6 literal the spec names). -/
inductive IpAddr where
  | v4 (a b c d : Nat)
  | v6loopback
deriving DecidableEq, Repr

/-- Dotted-quad rendering, as Python prints an address. -/
def ipStr : IpAddr → String
  | .v4 a b c d =>
      toString a ++ "." ++ toString b ++ "." ++ toString c ++ "." ++ toString d
  | .v6loopback => "::1"

/-- One decimal octet: digits only, no leading zero, value at most 255. -/
def parseOctet (s : String) : Option Nat :=
  let l := s.data
  if l.isEmpty then none
  else if ¬ l.all Char.isDigit then none
  else if l.length > 1 ∧ l.headD 'x' = '0' then none
  else
    let n := l.foldl (fun n c => n * 10 + (c.toNat - 48)) 0
    if n ≤ 255 then some n else none

/-- Modelled from the stdlib: `ipaddress.ip_address` on dotted-quad IPv4
literals and the IPv6 loopback literal `::1`; other strings are treated as
unparseable (`ValueError` in Python). -/
def parseIpAddr (s : String) : Option IpAddr :=
  if s = "::1" then some .v6loopback
  else match strSplitOn s "." with
    | [a, b, c, d] =>
      match parseOctet a, parseOctet b, parseOctet c, parseOctet d with
      | some x, some y, some z, some w => some (.v4 x y z w)
      | _, _, _, _ => none
    | _ => none

/-- Modelled from the spec: loopback addresses (`127.0.0.0/8` and `::1`). -/
def IpAddr.is_loopback : IpAddr → Bool
  | .v4 a _ _ _ => a = 127
  | .v6loopback => true

/-- Modelled from the spec: private ranges `10.0.0.0/8`, `172.16.0.0/12`,
`192.168.0.0/16` together with loopback space, as the stdlib classifies
them. -/
def IpAddr.is_private : IpAddr → Bool
  | .v4 a b _ _ =>
      a = 10 ∨ (a = 172 ∧ 16 ≤ b ∧ b ≤ 31) ∨ (a = 192 ∧ b = 168) ∨ a = 127
  | .v6loopback => true

/-- Modelled from the stdlib: the IPv4 reserved block `240.0.0.0/4`. -/
def IpAddr.is_reserved : IpAddr → Bool
  | .v4 a _ _ _ => 240 ≤ a ∧ a ≤ 255
  | .v6loopback => false

/-- The disjunction tested by `validate_url` at both classification sites:
`addr.is_private or addr.is_reserved or addr.is_loopback`. -/
def isBlockedIp (ip : IpAddr) : Bool :=
  ip.is_private || ip.is_reserved || ip.is_loopback

-- ── validate_url (basalguard/security/network.py) ──────────────────────

/-- `_ALLOWED_SCHEMES` from network.py. -/
def _ALLOWED_SCHEMES : List String := ["http", "https"]

/-- The per-record classification loop of `validate_url`: addresses that do
not parse are skipped (`except ValueError: continue`); the first
private/reserved/loopback address raises a `SecurityError`. -/
def checkAddrs (hostname : String) : List String → Except PyExc Unit
  | [] => .ok ()
  | a :: rest =>
    match parseIpAddr a with
    | none => checkAddrs hostname rest
    | some ip =>
      if isBlockedIp ip then
        .error (secErr
          ("Domain \x27" ++ hostname ++ "\x27 resolves to private/reserved IP "
            ++ ipStr ip ++ " — SSRF blocked")
          (some (ipStr ip)))
      else checkAddrs hostname rest

/-- `validate_url` from network.py: scheme check, hostname presence,
optional domain allowlist, raw-IP classification, then DNS resolution with
block-on-any-private.  Every refusal raises a `SecurityError` (class
`securityError`); the function returns the unmodified URL on success. -/
def validate_url (env : Env) (url : String)
    (allowed_domains : Option (List String)) : Except PyExc String :=
  let parsed := urlparse url
  if ¬ _ALLOWED_SCHEMES.contains parsed.scheme then
    .error (secErr
      ("Blocked scheme \x27" ++ parsed.scheme ++ "\x27. Allowed: [\x27http\x27, \x27https\x27]")
      (some parsed.scheme))
  else
    match parsed.hostname with
    | none => .error (secErr ("No hostname in URL: " ++ url) (some url))
    | some hostname =>
      let allowCheck : Except PyExc Unit :=
        match allowed_domains with
        | none => .ok ()
        | some ds =>
          let normalised := ds.map (fun d => (strLower d).trim)
          if normalised.contains (strLower hostname) then .ok ()
          else .error (secErr
            ("Domain \x27" ++ hostname ++ "\x27 not in allowed list") (some hostname))
      match allowCheck with
      | .error e => .error e
      | .ok _ =>
        match parseIpAddr hostname with
        | some addr =>
          if isBlockedIp addr then
            .error (secErr ("Blocked private/reserved IP: " ++ ipStr addr)
              (some (ipStr addr)))
          else .ok url
        | none =>
          match env.getaddrinfo hostname with
          | .error e =>
            if catches .gaierror e.cls then
              .error (secErr
                ("DNS resolution failed for \x27" ++ hostname ++ "\x27: " ++ e.msg)
                (some hostname))
            else .error e
          | .ok infos =>
            if infos.isEmpty then
              .error (secErr
                ("DNS returned no results for \x27" ++ hostname ++ "\x27")
                (some hostname))
            else
              match checkAddrs hostname infos with
              | .error e => .error e
              | .ok _ => .ok url

-- ── Filesystem model ───────────────────────────────────────────────────

/-- The workspace filesystem: resolved paths of regular files mapped to
their text content, a set of directory paths, and a set of paths at which
the OS raises `OSError` on open/read/write (modelling I/O failures,
including failing parent-directory creation collapsed onto the write). -/
structure FileSys where
  files : List (String × String)
  dirs : List String := []
  ioFail : List String := []

/-- Insert or replace a file. -/
def fsSetFile (fs : FileSys) (p c : String) : FileSys :=
  { fs with files := (p, c) :: fs.files.filter (fun e => !(e.1 == p)) }

/-- Content of a regular file, if present. -/
def fsLookup (fs : FileSys) (p : String) : Option String :=
  fs.files.lookup p

/-- Python `Path.exists()`: true for files and directories of the model. -/
def fsExists (fs : FileSys) (p : String) : Bool :=
  (fsLookup fs p).isSome || fs.dirs.contains p

/-- Python `Path.is_file()`: true exactly for regular files. -/
def fsIsFile (fs : FileSys) (p : String) : Bool :=
  (fsLookup fs p).isSome

/-- Python `Path.write_text(content, encoding="utf-8")`: raises `OSError`
on an I/O-failing path or a directory target, otherwise stores the text. -/
def fsWriteText (fs : FileSys) (p c : String) : Except PyExc FileSys :=
  if fs.ioFail.contains p || fs.dirs.contains p then
    .error { cls := .osError, msg := "I/O error writing " ++ p }
  else .ok (fsSetFile fs p c)

/-- Python `Path.read_text(encoding="utf-8")` on an existing regular file:
raises `OSError` on an I/O-failing path, otherwise returns the text. -/
def fsReadText (fs : FileSys) (p : String) : Except PyExc String :=
  if fs.ioFail.contains p then
    .error { cls := .osError, msg := "I/O error reading " ++ p }
  else
    match fsLookup fs p with
    | some c => .ok c
    | none => .error { cls := .osError, msg := "I/O error reading " ++ p }

-- ── PurePosixPath name/parent (stdlib pathlib, modelled) ───────────────

/-- Path components after dropping empty and `.` segments, as
`PurePosixPath` normalizes them. -/
def pathComponents (p : String) : List String :=
  (strSplitOn p "/").filter (fun c => !(c == "") && !(c == "."))

/-- Whether the path is absolute. -/
def pathIsAbs (p : String) : Bool := strStartsWith p "/"

/-- `PurePosixPath(p).name`: the final component (empty for a bare root or
empty path). -/
def pathName (p : String) : String := (pathComponents p).getLastD ""

/-- `str(PurePosixPath(p).parent)`: all but the final component, `.` for a
single-component relative path, `/` for a root child. -/
def pathParent (p : String) : String :=
  let cs := pathComponents p
  if cs.length ≤ 1 then (if pathIsAbs p then "/" else ".")
  else (if pathIsAbs p then "/" else "") ++ String.intercalate "/" cs.dropLast

/-- `str(parent / name)` for a parent known to be different from `.`. -/
def pathJoin (parent name : String) : String :=
  if parent = "/" then "/" ++ name else parent ++ "/" ++ name

-- ── BasalGuardCore methods (agent_firewall.py) ─────────────────────────

/-- Step 1 of `safe_write_file`: sanitize only the filename component and
reattach the directory part, exactly as the source computes
`sanitised_path`. -/
def sanitisedPathOf (env : Env) (path : String) : String :=
  let safe_name := env.sanitize_filename (pathName path)
  if pathParent path ≠ "." then pathJoin (pathParent path) safe_name
  else safe_name

/-- The `try` body of `safe_write_file`: sanitize, traversal-guard, create
parents, write, and build the success dict with `bytes_written` equal to
the UTF-8 byte length of the content. -/
def writeBody (env : Env) (fs : FileSys) (path content : String) :
    Except PyExc (FwResult × FileSys) := do
  let sanitised := sanitisedPathOf env path
  let resolved ← env.guard_path_traversal sanitised
  let fs2 ← fsWriteText fs resolved content
  pure ({ status := .success, action := some "write_file",
          path := some resolved,
          bytes_written := some content.utf8ByteSize }, fs2)

/-- `safe_write_file`: the body above with the two `except` clauses of the
source.  A `SecurityError` yields a blocked dict whose violator is
`exc.value or path`; a `ValueError` or `OSError` also yields a blocked
dict with the requested path as violator; any other exception class
propagates. -/
def safe_write_file (env : Env) (fs : FileSys) (path content : String) :
    Except PyExc (FwResult × FileSys) :=
  match writeBody env fs path content with
  | .ok r => .ok r
  | .error e =>
    if catches .securityError e.cls then
      .ok ({ status := .blocked, action := some "write_file",
             reason := some e.msg,
             violator := some (pyOrStr e.value path) }, fs)
    else if catches .valueError e.cls || catches .osError e.cls then
      .ok ({ status := .blocked, action := some "write_file",
             reason := some e.msg, violator := some path }, fs)
    else .error e

/-- The `try` body of `safe_read_file`: traversal-guard, existence check
(`error` dict when absent), regular-file check (`error` dict otherwise),
size cap (`blocked` dict above 1 MiB), then read. -/
def readBody (env : Env) (fs : FileSys) (path : String) :
    Except PyExc FwResult := do
  let resolved ← env.guard_path_traversal path
  if ¬ fsExists fs resolved then
    pure { status := .error, action := some "read_file",
           reason := some ("File not found: " ++ path) }
  else if ¬ fsIsFile fs resolved then
    pure { status := .error, action := some "read_file",
           reason := some ("Path is not a file: " ++ path) }
  else
    let size := ((fsLookup fs resolved).getD "").utf8ByteSize
    if size > _MAX_READ_SIZE_BYTES then
      pure { status := .blocked, action := some "read_file",
             reason := some ("File too large (" ++ toString size
               ++ " bytes). Max: " ++ toString _MAX_READ_SIZE_BYTES
               ++ " bytes."),
             violator := some path }
    else do
      let content ← fsReadText fs resolved
      pure { status := .success, action := some "read_file",
             path := some resolved, content := some content,
             size_bytes := some size }

/-- `safe_read_file`: the body above with the two `except` clauses of the
source (identical shape to the write handlers). -/
def safe_read_file (env : Env) (fs : FileSys) (path : String) :
    Except PyExc FwResult :=
  match readBody env fs path with
  | .ok r => .ok r
  | .error e =>
    if catches .securityError e.cls then
      .ok { status := .blocked, action := some "read_file",
            reason := some e.msg, violator := some (pyOrStr e.value path) }
    else if catches .valueError e.cls || catches .osError e.cls then
      .ok { status := .blocked, action := some "read_file",
            reason := some e.msg, violator := some path }
    else .error e

/-- Python `command_parts[0] if command_parts else ""` rendered as a
string. -/
def headStr (parts : List PyVal) : String :=
  match parts with
  | [] => ""
  | x :: _ => pyStr x

/-- The `try` body of `safe_execute_command`: one combined
injection-and-allowlist validation pass through `guard_command_injection`,
then execution through `run_safe_command` (working directory, allowlist
and the 60-second timeout are absorbed into the oracle). -/
def execBody (env : Env) (allowlist : List String)
    (command_parts : List PyVal) : Except PyExc FwResult := do
  let _ ← env.guard_command_injection command_parts allowlist
  let r ← env.run_safe_command command_parts
  pure { status := .success, action := some "execute_command",
         command := some command_parts, returncode := some r.returncode,
         stdout := some r.stdout, stderr := some r.stderr }

/-- `safe_execute_command`: the body above with the two `except` clauses of
the source; the blocked violator is `exc.value or command_parts[0]` with an
empty-string fallback for an empty list. -/
def safe_execute_command (env : Env) (allowlist : List String)
    (command_parts : List PyVal) : Except PyExc FwResult :=
  match execBody env allowlist command_parts with
  | .ok r => .ok r
  | .error e =>
    if catches .securityError e.cls then
      .ok { status := .blocked, action := some "execute_command",
            reason := some e.msg,
            violator := some (pyOrStr e.value (headStr command_parts)) }
    else if catches .valueError e.cls || catches .osError e.cls then
      .ok { status := .blocked, action := some "execute_command",
            reason := some e.msg, violator := some (headStr command_parts) }
    else .error e

/-- Python string slice `s[:n]`: the first `n` characters. -/
def strTake (s : String) (n : Nat) : String := ⟨s.data.take n⟩

/-- `safe_web_request`: uppercase the method and refuse anything but GET
and HEAD as `blocked`; validate the URL, converting only a
`NetworkSecurityError` to a blocked dict — the base `SecurityError`
actually raised by `validate_url` is NOT caught here and propagates;
perform the request, truncating the body to `_MAX_RESPONSE_BODY`
characters; convert an httpx timeout or transport error to an `error`
dict. -/
def safe_web_request (env : Env) (url method : String) :
    Except PyExc FwResult :=
  let methodU := strUpper method
  if ¬ (methodU = "GET" ∨ methodU = "HEAD") then
    .ok { status := .blocked, action := some "web_request",
          reason := some ("HTTP method \x27" ++ methodU
            ++ "\x27 not allowed. Only GET and HEAD are permitted."),
          violator := some methodU }
  else
    match validate_url env url none with
    | .error e =>
      if catches .networkSecurityError e.cls then
        .ok { status := .blocked, action := some "web_request",
              reason := some e.msg, violator := some url }
      else .error e
    | .ok validated =>
      match env.httpRequest methodU validated with
      | .ok resp =>
        .ok { status := .success, action := some "web_request",
              url := some validated, method := some methodU,
              status_code := some resp.status_code,
              content := some (strTake resp.text _MAX_RESPONSE_BODY) }
      | .error e =>
        if catches .timeoutException e.cls then
          .ok { status := .error, action := some "web_request",
                reason := some "Request timed out after 10s",
                violator := some url }
        else if catches .httpError e.cls then
          .ok { status := .error, action := some "web_request",
                reason := some ("HTTP error: " ++ e.msg),
                violator := some url }
        else .error e

/-- `validate_intent`: the intent router.  Unknown actions yield an
`error` dict listing the four valid actions; each known action checks its
parameter shape (`error` on violation) and dispatches to its guard.  The
filesystem is threaded through for the write action. -/
def validate_intent (env : Env) (allowlist : List String) (fs : FileSys)
    (action : String) (params : List (String × PyVal)) :
    Except PyExc (FwResult × FileSys) :=
  if ¬ _VALID_ACTIONS.contains action then
    .ok ({ status := .error,
           reason := some ("Unknown action \x27" ++ action
             ++ "\x27. Valid actions: [\x27execute_command\x27, \x27read_file\x27, "
             ++ "\x27web_request\x27, \x27write_file\x27]") }, fs)
  else if action = "write_file" then
    match pget params "path", pget params "content" with
    | .vstr p, content =>
      if isVNone content then
        .ok ({ status := .error,
               reason := some ("Action \x27write_file\x27 requires string \x27path\x27 "
                 ++ "and \x27content\x27 parameters.") }, fs)
      else safe_write_file env fs p (pyStr content)
    | _, _ =>
      .ok ({ status := .error,
             reason := some ("Action \x27write_file\x27 requires string \x27path\x27 "
               ++ "and \x27content\x27 parameters.") }, fs)
  else if action = "read_file" then
    match pget params "path" with
    | .vstr p => (safe_read_file env fs p).map (fun r => (r, fs))
    | _ =>
      .ok ({ status := .error,
             reason := some "Action \x27read_file\x27 requires a string \x27path\x27 parameter." },
           fs)
  else if action = "execute_command" then
    match pget params "command_parts" with
    | .vlist l =>
      if l.isEmpty then
        .ok ({ status := .error,
               reason := some ("Action \x27execute_command\x27 requires a non-empty "
                 ++ "\x27command_parts\x27 list.") }, fs)
      else (safe_execute_command env allowlist l).map (fun r => (r, fs))
    | _ =>
      .ok ({ status := .error,
             reason := some ("Action \x27execute_command\x27 requires a non-empty "
               ++ "\x27command_parts\x27 list.") }, fs)
  else
    match pget params "url" with
    | .vstr u =>
      if u = "" then
        .ok ({ status := .error,
               reason := some ("Action \x27web_request\x27 requires a non-empty "
                 ++ "\x27url\x27 string parameter.") }, fs)
      else
        let method := pgetD params "method" (.vstr "GET")
        (safe_web_request env u (pyStr method)).map (fun r => (r, fs))
    | _ =>
      .ok ({ status := .error,
             reason := some ("Action \x27web_request\x27 requires a non-empty "
               ++ "\x27url\x27 string parameter.") }, fs)

-- ── UTF-8 decoding with replacement (stdlib codec, modelled) ───────────

/-- A UTF-8 continuation byte. -/
def isCont (b : Nat) : Bool := decide (0x80 ≤ b ∧ b < 0xC0)

/-- Valid second byte of a three-byte sequence led by `b1` (excluding
overlong encodings and surrogates, as the strict stdlib decoder does). -/
def cont3ok (b1 b2 : Nat) : Bool :=
  if b1 = 0xE0 then decide (0xA0 ≤ b2 ∧ b2 ≤ 0xBF)
  else if b1 = 0xED then decide (0x80 ≤ b2 ∧ b2 ≤ 0x9F)
  else isCont b2

/-- Valid second byte of a four-byte sequence led by `b1` (excluding
overlong encodings and code points above U+10FFFF). -/
def cont4ok (b1 b2 : Nat) : Bool :=
  if b1 = 0xF0 then decide (0x90 ≤ b2 ∧ b2 ≤ 0xBF)
  else if b1 = 0xF4 then decide (0x80 ≤ b2 ∧ b2 ≤ 0x8F)
  else isCont b2

/-- Length check for a two-byte head. -/
def twoBytesLen : List Nat → Option Nat
  | b2 :: _ => if isCont b2 then some 2 else none
  | [] => none

/-- Length check for a three-byte head with lead `b1`. -/
def threeBytesLen (b1 : Nat) : List Nat → Option Nat
  | b2 :: b3 :: _ => if cont3ok b1 b2 && isCont b3 then some 3 else none
  | _ => none

/-- Length check for a four-byte head with lead `b1`. -/
def fourBytesLen (b1 : Nat) : List Nat → Option Nat
  | b2 :: b3 :: b4 :: _ =>
      if cont4ok b1 b2 && isCont b3 && isCont b4 then some 4 else none
  | _ => none

/-- Byte length of the valid UTF-8 character starting the list, if any. -/
def firstCharLen : List Nat → Option Nat
  | [] => none
  | b1 :: rest =>
    if b1 < 0x80 then some 1
    else if 0xC2 ≤ b1 ∧ b1 ≤ 0xDF then twoBytesLen rest
    else if 0xE0 ≤ b1 ∧ b1 ≤ 0xEF then threeBytesLen b1 rest
    else if 0xF0 ≤ b1 ∧ b1 ≤ 0xF4 then fourBytesLen b1 rest
    else none

/-- The code point encoded by the first `n` bytes of the list (only used
when `firstCharLen` returned `some n`). -/
def charAt (l : List Nat) (n : Nat) : Nat :=
  match n, l with
  | 1, b1 :: _ => b1
  | 2, b1 :: b2 :: _ => (b1 - 0xC0) * 64 + (b2 - 0x80)
  | 3, b1 :: b2 :: b3 :: _ =>
      (b1 - 0xE0) * 4096 + (b2 - 0x80) * 64 + (b3 - 0x80)
  | 4, b1 :: b2 :: b3 :: b4 :: _ =>
      (b1 - 0xF0) * 262144 + (b2 - 0x80) * 4096 + (b3 - 0x80) * 64
        + (b4 - 0x80)
  | _, _ => 0xFFFD

/-- One greedy decoding step: a valid character and its byte length, or the
replacement character U+FFFD consuming one byte (the stdlib may group more
bytes per marker on malformed input; only decoding of well-formed spans is
relied on by the theorems below). -/
def decodeOne (l : List Nat) : Nat × Nat :=
  match firstCharLen l with
  | some n => (charAt l n, n)
  | none => (0xFFFD, 1)

/-- Fuelled greedy decoding loop; each step consumes at least one byte, so
fuel equal to the byte count suffices. -/
def decodeGo : Nat → List Nat → List Char
  | 0, _ => []
  | _ + 1, [] => []
  | fuel + 1, b :: rest =>
    let r := decodeOne (b :: rest)
    Char.ofNat r.1 :: decodeGo fuel ((b :: rest).drop r.2)

/-- `bytes.decode("utf-8", errors="replace")` on the modelled byte list. -/
def decodeUtf8Replace (l : List Nat) : String := ⟨decodeGo l.length l⟩

/-- Fuelled well-formedness check: the list is a concatenation of complete
valid UTF-8 characters. -/
def validGo : Nat → List Nat → Bool
  | _, [] => true
  | 0, _ :: _ => false
  | fuel + 1, b :: rest =>
    match firstCharLen (b :: rest) with
    | some n => validGo fuel ((b :: rest).drop n)
    | none => false

/-- The byte list is well-formed UTF-8 (every split point used below must
land between characters of such a list for exact recomposition). -/
def validUtf8 (l : List Nat) : Bool := validGo l.length l

-- ── advanced_file_ops.py ───────────────────────────────────────────────

/-- A filesystem view for the byte-oriented paged reader: resolved paths of
regular files mapped to raw byte contents. -/
structure ByteFS where
  files : List (String × List Nat)

/-- `read_file_paged` from advanced_file_ops.py: traversal-guard the path,
require a regular file (`FileNotFoundError` otherwise), clamp negative
offset and limit to zero, seek to the byte offset, read at most `limit`
bytes and decode them with replacement.  Unlike the firewall methods this
function raises; callers receive the exception. -/
def read_file_paged (env : Env) (bfs : ByteFS) (path : String)
    (offset limit : Int) : Except PyExc String := do
  let resolved ← env.guard_path_traversal path
  match bfs.files.lookup resolved with
  | none =>
    .error { cls := .fileNotFoundError,
             msg := "Path is not a file: " ++ resolved }
  | some bytes =>
    let o := if offset < 0 then (0 : Int) else offset
    let l := if limit < 0 then (0 : Int) else limit
    .ok (decodeUtf8Replace ((bytes.drop o.toNat).take l.toNat))

-- ── Concrete environments for the evaluations below ────────────────────

/-- A benign oracle: identity sanitizer, a traversal guard resolving every
request below `/ws`, an injection guard that finds nothing, a trivial
process runner, empty DNS answers and an offline HTTP client. -/
def envW : Env :=
  { sanitize_filename := fun s => s
    guard_path_traversal := fun s => .ok ("/ws/" ++ s)
    guard_command_injection := fun _ _ => .ok ()
    run_safe_command := fun _ => .ok { returncode := 0, stdout := "", stderr := "" }
    getaddrinfo := fun _ => .ok []
    httpRequest := fun _ _ => .error { cls := .httpError, msg := "offline" } }

/-- The empty workspace. -/
def fsEmpty : FileSys := { files := [] }

/-- A workspace where writing `/ws/hello.txt` raises `OSError`. -/
def fsIoFail : FileSys := { files := [], ioFail := ["/ws/hello.txt"] }

/-- A workspace holding one small file. -/
def fsOne : FileSys := { files := [("/ws/a.txt", "hi")] }

/-- The benign oracle with DNS resolving every hostname to the private
address `10.0.0.1`. -/
def envDns : Env := { envW with getaddrinfo := fun _ => .ok ["10.0.0.1"] }

/-- A fixed 200 response used by `envHttp`. -/
def respOk : HttpResponse := { status_code := 200, text := "Example Domain" }

/-- The benign oracle with an HTTP client returning a fixed 200 response. -/
def envHttp : Env := { envW with httpRequest := fun _ _ => .ok respOk }

/-- The benign oracle with an injection guard that (as the TaipanStack
contract requires) raises a `SecurityError` on an empty command list. -/
def envInj : Env :=
  { envW with guard_command_injection := fun parts _ =>
      if parts.isEmpty then
        .error { cls := .securityError, msg := "Empty command list",
                 guard_name := "command_injection_guard", value := some "" }
      else .ok () }

/-- The byte filesystem for the paged-read evaluations: one five-byte
ASCII file. -/
def bfsW : ByteFS := { files := [("/ws/test.txt", [72, 101, 108, 108, 111])] }

-- ── Decoder lemmas ─────────────────────────────────────────────────────

/-- A recognized first character is 1–4 bytes long and fits in the list. -/
theorem fcl_bounds : ∀ {l : List Nat} {n : Nat},
    firstCharLen l = some n → 1 ≤ n ∧ n ≤ l.length := by
  intro l n h
  match l with
  | [] => simp [firstCharLen] at h
  | b1 :: rest =>
    simp only [firstCharLen] at h
    split at h
    · cases h; simp
    · split at h
      · match rest with
        | [] => simp [twoBytesLen] at h
        | b2 :: r =>
          simp only [twoBytesLen] at h
          split at h
          · cases h; simp
          · exact absurd h (by simp)
      · split at h
        · match rest with
          | [] => simp [threeBytesLen] at h
          | [b2] => simp [threeBytesLen] at h
          | b2 :: b3 :: r =>
            simp only [threeBytesLen] at h
            split at h
            · cases h; simp
            · exact absurd h (by simp)
        · split at h
          · match rest with
            | [] => simp [fourBytesLen] at h
            | [b2] => simp [fourBytesLen] at h
            | [b2, b3] => simp [fourBytesLen] at h
            | b2 :: b3 :: b4 :: r =>
              simp only [fourBytesLen] at h
              split at h
              · cases h; simp
              · exact absurd h (by simp)
          · exact absurd h (by simp)

/-- Recognition of a leading character is stable under appending bytes. -/
theorem fcl_append : ∀ {l : List Nat} {n : Nat} (t : List Nat),
    firstCharLen l = some n → firstCharLen (l ++ t) = some n := by
  intro l n t h
  match l with
  | [] => simp [firstCharLen] at h
  | b1 :: rest =>
    simp only [firstCharLen, List.cons_append] at h ⊢
    split at h
    · simpa [*] using h
    · split at h
      · match rest with
        | [] => simp [twoBytesLen] at h
        | b2 :: r =>
          simp only [twoBytesLen, List.cons_append] at h ⊢
          simp only [*, if_neg, reduceIte]
          split at h
          · simpa [*] using h
          · exact absurd h (by simp)
      · split at h
        · match rest with
          | [] => simp [threeBytesLen] at h
          | [b2] => simp [threeBytesLen] at h
          | b2 :: b3 :: r =>
            simp only [threeBytesLen, List.cons_append] at h ⊢
            simp only [*, if_neg, reduceIte]
            split at h
            · simpa [*] using h
            · exact absurd h (by simp)
        · split at h
          · match rest with
            | [] => simp [fourBytesLen] at h
            | [b2] => simp [fourBytesLen] at h
            | [b2, b3] => simp [fourBytesLen] at h
            | b2 :: b3 :: b4 :: r =>
              simp only [fourBytesLen, List.cons_append] at h ⊢
              simp only [*, if_neg, reduceIte]
              split at h
              · simpa [*] using h
              · exact absurd h (by simp)
          · exact absurd h (by simp)

/-- The decoded code point of a recognized leading character is likewise
stable under appending bytes. -/
theorem charAt_append : ∀ {l : List Nat} {n : Nat} (t : List Nat),
    firstCharLen l = some n → charAt (l ++ t) n = charAt l n := by
  intro l n t h
  have hb := fcl_bounds h
  match l with
  | [] => simp [firstCharLen] at h
  | b1 :: rest =>
    simp only [firstCharLen] at h
    split at h
    · cases h; rfl
    · split at h
      · match rest with
        | [] => simp [twoBytesLen] at h
        | b2 :: r =>
          simp only [twoBytesLen] at h
          split at h
          · cases h; rfl
          · exact absurd h (by simp)
      · split at h
        · match rest with
          | [] => simp [threeBytesLen] at h
          | [b2] => simp [threeBytesLen] at h
          | b2 :: b3 :: r =>
            simp only [threeBytesLen] at h
            split at h
            · cases h; rfl
            · exact absurd h (by simp)
        · split at h
          · match rest with
            | [] => simp [fourBytesLen] at h
            | [b2] => simp [fourBytesLen] at h
            | [b2, b3] => simp [fourBytesLen] at h
            | b2 :: b3 :: b4 :: r =>
              simp only [fourBytesLen] at h
              split at h
              · cases h; rfl
              · exact absurd h (by simp)
          · exact absurd h (by simp)

/-- Each greedy decoding step consumes at least one byte. -/
theorem decodeOne_pos (l : List Nat) : 1 ≤ (decodeOne l).2 := by
  unfold decodeOne
  split
  · next n hf => exact (fcl_bounds hf).1
  · simp

/-- Decoding does not depend on the fuel once it covers the byte count. -/
theorem decodeGo_ext : ∀ (f1 f2 : Nat) (l : List Nat),
    l.length ≤ f1 → l.length ≤ f2 → decodeGo f1 l = decodeGo f2 l := by
  intro f1
  induction f1 with
  | zero =>
    intro f2 l h1 _
    have : l = [] := List.eq_nil_of_length_eq_zero (Nat.le_zero.mp h1)
    subst this
    cases f2 <;> rfl
  | succ f ih =>
    intro f2 l h1 h2
    cases l with
    | nil => cases f2 <;> rfl
    | cons b rest =>
      cases f2 with
      | zero => simp at h2
      | succ f2' =>
        simp only [decodeGo]
        congr 1
        have hpos := decodeOne_pos (b :: rest)
        have hlen : ((b :: rest).drop (decodeOne (b :: rest)).2).length
            = (b :: rest).length - (decodeOne (b :: rest)).2 :=
          List.length_drop _ _
        apply ih
        · simp only [hlen, List.length_cons]
          simp only [List.length_cons] at h1
          omega
        · simp only [hlen, List.length_cons]
          simp only [List.length_cons] at h2
          omega

/-- Validity checking does not depend on the fuel once it covers the byte
count. -/
theorem validGo_ext : ∀ (f1 f2 : Nat) (l : List Nat),
    l.length ≤ f1 → l.length ≤ f2 → validGo f1 l = validGo f2 l := by
  intro f1
  induction f1 with
  | zero =>
    intro f2 l h1 _
    have : l = [] := List.eq_nil_of_length_eq_zero (Nat.le_zero.mp h1)
    subst this
    cases f2 <;> rfl
  | succ f ih =>
    intro f2 l h1 h2
    cases l with
    | nil => cases f2 <;> rfl
    | cons b rest =>
      cases f2 with
      | zero => simp at h2
      | succ f2' =>
        simp only [validGo]
        cases hf : firstCharLen (b :: rest) with
        | none => rfl
        | some n =>
          have hb := fcl_bounds hf
          have hlen : ((b :: rest).drop n).length = (b :: rest).length - n :=
            List.length_drop _ _
          apply ih
          · simp only [hlen, List.length_cons]
            simp only [List.length_cons] at h1
            omega
          · simp only [hlen, List.length_cons]
            simp only [List.length_cons] at h2
            omega

/-- Greedy decoding distributes over concatenation at a well-formed left
part: the decoder emits the characters of `l1` and then decodes `l2`
independently. -/
theorem decodeGo_append : ∀ (k : Nat) (l1 l2 : List Nat), l1.length ≤ k →
    validUtf8 l1 = true →
    decodeGo (l1 ++ l2).length (l1 ++ l2)
      = decodeGo l1.length l1 ++ decodeGo l2.length l2 := by
  intro k
  induction k with
  | zero =>
    intro l1 l2 h1 _
    have : l1 = [] := List.eq_nil_of_length_eq_zero (Nat.le_zero.mp h1)
    subst this
    simp [decodeGo]
  | succ k ih =>
    intro l1 l2 h1 hv
    cases l1 with
    | nil => simp [decodeGo]
    | cons b rest =>
      unfold validUtf8 at hv
      rw [show (b :: rest).length = rest.length + 1 from rfl] at hv
      unfold validGo at hv
      cases hfc : firstCharLen (b :: rest) with
      | none => rw [hfc] at hv; simp at hv
      | some n =>
        rw [hfc] at hv
        obtain ⟨hn1, hnle⟩ := fcl_bounds hfc
        simp only [List.length_cons] at hnle h1
        -- well-formedness of the dropped remainder
        have hlend : ((b :: rest).drop n).length = rest.length + 1 - n := by
          rw [List.length_drop]; simp
        have hvd : validUtf8 ((b :: rest).drop n) = true := by
          unfold validUtf8
          rw [validGo_ext ((b :: rest).drop n).length rest.length _
            (le_refl _) (by omega)]
          exact hv
        -- decode the first character on both sides
        have hfcA := fcl_append l2 hfc
        have hch := charAt_append l2 hfc
        have lenApp : ((b :: rest) ++ l2).length
            = rest.length + 1 + l2.length := by simp; omega
        have step1 : decodeGo ((b :: rest) ++ l2).length ((b :: rest) ++ l2)
            = Char.ofNat (charAt (b :: rest) n)
              :: decodeGo (((b :: rest) ++ l2).length - 1)
                  (((b :: rest) ++ l2).drop n) := by
          cases hL : ((b :: rest) ++ l2).length with
          | zero => simp at hL
          | succ m =>
            have : (b :: rest) ++ l2 = b :: (rest ++ l2) := rfl
            rw [this]
            rw [this] at hfcA hch
            simp only [decodeGo, decodeOne, hfcA]
            rw [hch]
            simp
        have step2 : decodeGo (b :: rest).length (b :: rest)
            = Char.ofNat (charAt (b :: rest) n)
              :: decodeGo rest.length ((b :: rest).drop n) := by
          simp only [List.length_cons, decodeGo, decodeOne, hfc]
        -- rewrite the dropped append
        have hdrop : ((b :: rest) ++ l2).drop n = (b :: rest).drop n ++ l2 := by
          rw [List.drop_append_eq_append_drop]
          have : n - (b :: rest).length = 0 := by simp; omega
          rw [this, List.drop_zero]
        rw [step1, step2, hdrop]
        -- apply the induction hypothesis to the dropped remainder
        have ihd := ih ((b :: rest).drop n) l2 (by omega) hvd
        have hfuel : decodeGo (((b :: rest) ++ l2).length - 1)
            ((b :: rest).drop n ++ l2)
            = decodeGo ((b :: rest).drop n ++ l2).length
                ((b :: rest).drop n ++ l2) := by
          apply decodeGo_ext
          · simp only [List.length_append, hlend, lenApp]; omega
          · exact le_refl _
        have hfuel2 : decodeGo rest.length ((b :: rest).drop n)
            = decodeGo ((b :: rest).drop n).length ((b :: rest).drop n) := by
          apply decodeGo_ext
          · rw [hlend]; omega
          · exact le_refl _
        rw [hfuel, ihd, hfuel2]
        simp

/-- String-level consequence: decoding with replacement distributes over a
split at a character boundary. -/
theorem decodeUtf8Replace_append (l1 l2 : List Nat)
    (h : validUtf8 l1 = true) :
    decodeUtf8Replace (l1 ++ l2)
      = decodeUtf8Replace l1 ++ decodeUtf8Replace l2 := by
  show (⟨decodeGo (l1 ++ l2).length (l1 ++ l2)⟩ : String) = _
  rw [decodeGo_append l1.length l1 l2 (le_refl _) h]
  rfl

-- ── Filesystem and guard helper lemmas ─────────────────────────────────

/-- Bind on a successful `Except` runs the continuation. -/
theorem ebind_ok {ε α β : Type} (a : α) (f : α → Except ε β) :
    (Except.ok a : Except ε α) >>= f = f a := rfl

/-- Bind on a raised `Except` propagates the exception. -/
theorem ebind_error {ε α β : Type} (e : ε) (f : α → Except ε β) :
    (Except.error e : Except ε α) >>= f = Except.error e := rfl

/-- Map over a successful `Except`. -/
theorem emap_ok {ε α β : Type} (a : α) (f : α → β) :
    f <$> (Except.ok a : Except ε α) = Except.ok (f a) := rfl

/-- Map over a raised `Except`. -/
theorem emap_error {ε α β : Type} (e : ε) (f : α → β) :
    f <$> (Except.error e : Except ε α) = Except.error e := rfl

/-- Pure for `Except` is the success constructor. -/
theorem epure {ε α : Type} (a : α) :
    (pure a : Except ε α) = Except.ok a := rfl

/-- Writing stores the content at the resolved path. -/
theorem fsLookup_set (fs : FileSys) (p c : String) :
    fsLookup (fsSetFile fs p c) p = some c := by
  simp [fsLookup, fsSetFile, List.lookup]

/-- The happy path of `safe_write_file`: with a traversal guard that
resolves the sanitised path and a non-failing target, the write succeeds
and reports the UTF-8 byte length. -/
theorem safe_write_file_success (env : Env) (fs : FileSys) (p c r : String)
    (hg : env.guard_path_traversal (sanitisedPathOf env p) = .ok r)
    (hio : fs.ioFail.contains r = false)
    (hdir : fs.dirs.contains r = false) :
    safe_write_file env fs p c
      = .ok ({ status := .success, action := some "write_file",
               path := some r, bytes_written := some c.utf8ByteSize },
             fsSetFile fs r c) := by
  have hbody : writeBody env fs p c
      = .ok ({ status := .success, action := some "write_file",
               path := some r, bytes_written := some c.utf8ByteSize },
             fsSetFile fs r c) := by
    have hio' : r ∉ fs.ioFail := by simpa using hio
    have hdir' : r ∉ fs.dirs := by simpa using hdir
    unfold writeBody
    simp [hg, fsWriteText, hio', hdir', ebind_ok, emap_ok]
  unfold safe_write_file
  rw [hbody]

/-- The happy path of `safe_read_file`: an existing regular file within the
size cap is returned with its content and size. -/
theorem safe_read_file_success (env : Env) (fs : FileSys) (p r c : String)
    (hg : env.guard_path_traversal p = .ok r)
    (hf : fsLookup fs r = some c)
    (hsize : c.utf8ByteSize ≤ _MAX_READ_SIZE_BYTES)
    (hio : fs.ioFail.contains r = false) :
    safe_read_file env fs p
      = .ok { status := .success, action := some "read_file", path := some r,
              content := some c, size_bytes := some c.utf8ByteSize } := by
  have hbody : readBody env fs p
      = .ok { status := .success, action := some "read_file", path := some r,
              content := some c, size_bytes := some c.utf8ByteSize } := by
    have hio' : r ∉ fs.ioFail := by simpa using hio
    unfold readBody
    simp [hg, fsExists, fsIsFile, hf, ebind_ok, emap_ok, fsReadText, hio',
      Nat.not_lt.mpr hsize]
  unfold safe_read_file
  rw [hbody]

/-- If any resolved address parses to a blocked IP, the classification loop
raises a `SecurityError`. -/
theorem checkAddrs_blocked (host : String) : ∀ (addrs : List String),
    (∃ a ∈ addrs, ∃ ip, parseIpAddr a = some ip ∧ isBlockedIp ip = true) →
    ∃ e, checkAddrs host addrs = .error e ∧ e.cls = .securityError := by
  intro addrs
  induction addrs with
  | nil =>
    rintro ⟨a, ha, _⟩
    exact absurd ha (List.not_mem_nil a)
  | cons x rest ih =>
    rintro ⟨a, ha, ip, hip, hbad⟩
    rcases List.mem_cons.mp ha with rfl | hmem
    · simp only [checkAddrs, hip, hbad, if_pos]
      exact ⟨_, rfl, rfl⟩
    · cases hx : parseIpAddr x with
      | none =>
        simp only [checkAddrs, hx]
        exact ih ⟨a, hmem, ip, hip, hbad⟩
      | some ipx =>
        by_cases hbx : isBlockedIp ipx = true
        · simp only [checkAddrs, hx, hbx, if_pos]
          exact ⟨_, rfl, rfl⟩
        · simp only [checkAddrs, hx, hbx, if_false, Bool.false_eq_true]
          exact ih ⟨a, hmem, ip, hip, hbad⟩

/-- A Python string slice never exceeds its bound. -/
theorem strTake_le (s : String) (n : Nat) : (strTake s n).length ≤ n := by
  show (s.data.take n).length ≤ n
  simp [List.length_take]

-- ── Claim theorems ─────────────────────────────────────────────────────

/-- Claim C1, code-bug evidence.  The claim states that `validate_intent`
always returns a tagged result and in particular converts every URL
validation failure of a web request into a tagged result.  The code
contradicts its own docstring and tests: `validate_url` raises the base
`SecurityError` while `safe_web_request` catches only the subclass
`NetworkSecurityError`, so the exception escapes `validate_intent`
unhandled.  Evaluated at the failing input
`web_request {url: http://192.168.1.1/admin}` the router raises a
`SecurityError` instead of returning a blocked dict. -/
theorem C1_web_request_security_error_escapes :
    validate_intent envW DEFAULT_COMMAND_ALLOWLIST fsEmpty "web_request"
      [("url", .vstr "http://192.168.1.1/admin")]
      = .error (secErr "Blocked private/reserved IP: 192.168.1.1"
          (some "192.168.1.1"))
    ∧ catches .networkSecurityError .securityError = false := by
  exact ⟨by rfl, by rfl⟩

/-- Claim C2, code-bug evidence.  The claim (and the integration tests of
the repository itself) say the router dispatches six actions including
paged-read and pattern-search; the code enumerates only four, so
`validate_intent` answers `error` with an unknown-action reason for
`read_file_paged` and `search_in_file` — the very calls the tests expect
to succeed. -/
theorem C2_router_lacks_paged_and_search_actions :
    validate_intent envW DEFAULT_COMMAND_ALLOWLIST fsEmpty "read_file_paged"
      [("path", .vstr "test.txt"), ("offset", .vint 0), ("limit", .vint 5)]
      = .ok ({ status := .error,
               reason := some ("Unknown action \x27read_file_paged\x27. "
                 ++ "Valid actions: [\x27execute_command\x27, \x27read_file\x27, "
                 ++ "\x27web_request\x27, \x27write_file\x27]") }, fsEmpty)
    ∧ validate_intent envW DEFAULT_COMMAND_ALLOWLIST fsEmpty "search_in_file"
      [("path", .vstr "test.txt"), ("pattern", .vstr "Secret")]
      = .ok ({ status := .error,
               reason := some ("Unknown action \x27search_in_file\x27. "
                 ++ "Valid actions: [\x27execute_command\x27, \x27read_file\x27, "
                 ++ "\x27web_request\x27, \x27write_file\x27]") }, fsEmpty)
    ∧ _VALID_ACTIONS = ["write_file", "read_file", "execute_command", "web_request"] := by
  exact ⟨by rfl, by rfl, rfl⟩

/-- Claim C3, counterexample.  The claim states that an OS-level I/O
failure during a write yields status `error`; the code maps `OSError` to
`blocked` instead, as this concrete failing write shows. -/
theorem C3_oserror_write_not_error_cx :
    safe_write_file envW fsIoFail "hello.txt" "hi"
      = .ok ({ status := .blocked, action := some "write_file",
               reason := some "I/O error writing /ws/hello.txt",
               violator := some "hello.txt" }, fsIoFail)
    ∧ Status.blocked ≠ Status.error := by
  exact ⟨by rfl, by decide⟩

/-- Claim C3, amended.  Security violations yield `blocked`, and an
OS-level I/O failure during the write or the read also yields `blocked`
(not `error`): the guards catch `ValueError` and `OSError` with the same
blocked-dict handler they use after a `SecurityError`. -/
theorem C3_write_read_failure_tags (env : Env) (fs : FileSys) (p c : String) :
    (∀ e, env.guard_path_traversal (sanitisedPathOf env p) = .error e →
      e.cls = .securityError →
      safe_write_file env fs p c
        = .ok ({ status := .blocked, action := some "write_file",
                 reason := some e.msg,
                 violator := some (pyOrStr e.value p) }, fs)) ∧
    (∀ r, env.guard_path_traversal (sanitisedPathOf env p) = .ok r →
      (fs.ioFail.contains r || fs.dirs.contains r) = true →
      safe_write_file env fs p c
        = .ok ({ status := .blocked, action := some "write_file",
                 reason := some ("I/O error writing " ++ r),
                 violator := some p }, fs)) ∧
    (∀ e, env.guard_path_traversal p = .error e → e.cls = .securityError →
      safe_read_file env fs p
        = .ok { status := .blocked, action := some "read_file",
                reason := some e.msg,
                violator := some (pyOrStr e.value p) }) ∧
    (∀ r c0, env.guard_path_traversal p = .ok r → fsLookup fs r = some c0 →
      c0.utf8ByteSize ≤ _MAX_READ_SIZE_BYTES → fs.ioFail.contains r = true →
      safe_read_file env fs p
        = .ok { status := .blocked, action := some "read_file",
                reason := some ("I/O error reading " ++ r),
                violator := some p }) := by
  refine ⟨?_, ?_, ?_, ?_⟩
  · intro e hg hcls
    have hbody : writeBody env fs p c = .error e := by
      unfold writeBody
      simp [hg, ebind_error]
    have hc : catches .securityError e.cls = true := by rw [hcls]; rfl
    unfold safe_write_file
    rw [hbody]
    simp [hc]
  · intro r hg hfail
    have hfail' : r ∈ fs.ioFail ∨ r ∈ fs.dirs := by simpa using hfail
    have hbody : writeBody env fs p c
        = .error { cls := .osError, msg := "I/O error writing " ++ r } := by
      unfold writeBody
      simp [hg, ebind_ok, fsWriteText, hfail', emap_error]
    have h1 : catches .securityError .osError = false := rfl
    have h2 : (catches .valueError .osError || catches .osError .osError)
        = true := rfl
    unfold safe_write_file
    rw [hbody]
    simp [h1, h2]
  · intro e hg hcls
    have hbody : readBody env fs p = .error e := by
      unfold readBody
      simp [hg, ebind_error]
    have hc : catches .securityError e.cls = true := by rw [hcls]; rfl
    unfold safe_read_file
    rw [hbody]
    simp [hc]
  · intro r c0 hg hf hsize hfail
    have hfail' : r ∈ fs.ioFail := by simpa using hfail
    have hbody : readBody env fs p
        = .error { cls := .osError, msg := "I/O error reading " ++ r } := by
      unfold readBody
      simp [hg, ebind_ok, ebind_error, emap_error, fsExists, fsIsFile, hf,
        fsReadText, hfail', Nat.not_lt.mpr hsize]
    have h1 : catches .securityError .osError = false := rfl
    have h2 : (catches .valueError .osError || catches .osError .osError)
        = true := rfl
    unfold safe_read_file
    rw [hbody]
    simp [h1, h2]

/-- Claim C3, amended-theorem witness: the OS write failure at a concrete
path is surfaced as a blocked dict. -/
theorem C3_write_read_failure_tags_witness :
    safe_write_file envW fsIoFail "hello.txt" "hi"
      = .ok ({ status := .blocked, action := some "write_file",
               reason := some "I/O error writing /ws/hello.txt",
               violator := some "hello.txt" }, fsIoFail) :=
  (C3_write_read_failure_tags envW fsIoFail "hello.txt" "hi").2.1
    "/ws/hello.txt" (by rfl) (by rfl)

/-- Claim C4.  For a well-formed http or https URL whose hostname is not an
IP literal, `validate_url` raises a `SecurityError` (the blocked signal of
the network guard) whenever any DNS-resolved address parses to a
private, reserved or loopback IP — regardless of the other addresses —
and likewise when resolution returns no addresses or the resolver raises
`socket.gaierror`. -/
theorem C4_validate_url_ssrf_policy (env : Env) (url host : String)
    (hs : _ALLOWED_SCHEMES.contains (urlparse url).scheme = true)
    (hh : (urlparse url).hostname = some host)
    (hni : parseIpAddr host = none) :
    (∀ addrs, env.getaddrinfo host = .ok addrs →
      (∃ a ∈ addrs, ∃ ip, parseIpAddr a = some ip ∧ isBlockedIp ip = true) →
      ∃ e, validate_url env url none = .error e ∧ e.cls = .securityError) ∧
    (env.getaddrinfo host = .ok [] →
      ∃ e, validate_url env url none = .error e ∧ e.cls = .securityError) ∧
    (∀ e0, env.getaddrinfo host = .error e0 →
      catches .gaierror e0.cls = true →
      ∃ e, validate_url env url none = .error e ∧ e.cls = .securityError) := by
  have hcommon : validate_url env url none
      = (match env.getaddrinfo host with
        | .error e =>
          if catches .gaierror e.cls then
            .error (secErr ("DNS resolution failed for \x27" ++ host
              ++ "\x27: " ++ e.msg) (some host))
          else .error e
        | .ok infos =>
          if infos.isEmpty then
            .error (secErr ("DNS returned no results for \x27" ++ host
              ++ "\x27") (some host))
          else
            match checkAddrs host infos with
            | .error e => .error e
            | .ok _ => .ok url) := by
    have hs' : (urlparse url).scheme ∈ _ALLOWED_SCHEMES := by simpa using hs
    unfold validate_url
    simp [hs', hh, hni]
  refine ⟨?_, ?_, ?_⟩
  · intro addrs hget hex
    rw [hcommon, hget]
    cases addrs with
    | nil =>
      obtain ⟨a, ha, _⟩ := hex
      exact absurd ha (List.not_mem_nil a)
    | cons x rest =>
      obtain ⟨e, hce, hcls⟩ := checkAddrs_blocked host (x :: rest) hex
      simp only [List.isEmpty_cons, hce]
      exact ⟨e, by rfl, hcls⟩
  · intro hget
    rw [hcommon, hget]
    exact ⟨_, by rfl, rfl⟩
  · intro e0 hget hgai
    rw [hcommon, hget]
    simp only [hgai, if_pos]
    exact ⟨_, by rfl, rfl⟩

/-- Claim C4 witness: a hostname resolving to the single private address
`10.0.0.1` is refused with a `SecurityError`. -/
theorem C4_validate_url_ssrf_policy_witness :
    ∃ e, validate_url envDns "http://internal.example/" none = .error e
      ∧ e.cls = .securityError :=
  (C4_validate_url_ssrf_policy envDns "http://internal.example/"
      "internal.example" (by rfl) (by rfl) (by rfl)).1
    ["10.0.0.1"] (by rfl)
    ⟨"10.0.0.1", by simp, ⟨.v4 10 0 0 1, by rfl, by rfl⟩⟩

/-- Claim C5.  Round trip: for content `c` and a path accepted unchanged by
sanitization and resolved by the traversal guard to a writable target
within the read cap, the write succeeds reporting the UTF-8 byte length of
`c` and the subsequent read returns exactly `c` with the same size. -/
theorem C5_write_read_roundtrip (env : Env) (fs : FileSys) (p c r : String)
    (hsan : sanitisedPathOf env p = p)
    (hguard : env.guard_path_traversal p = .ok r)
    (hio : fs.ioFail.contains r = false)
    (hdir : fs.dirs.contains r = false)
    (hsize : c.utf8ByteSize ≤ _MAX_READ_SIZE_BYTES) :
    safe_write_file env fs p c
      = .ok ({ status := .success, action := some "write_file",
               path := some r, bytes_written := some c.utf8ByteSize },
             fsSetFile fs r c)
    ∧ safe_read_file env (fsSetFile fs r c) p
      = .ok { status := .success, action := some "read_file", path := some r,
              content := some c, size_bytes := some c.utf8ByteSize } := by
  constructor
  · exact safe_write_file_success env fs p c r (by rw [hsan]; exact hguard)
      hio hdir
  · exact safe_read_file_success env (fsSetFile fs r c) p r c hguard
      (fsLookup_set fs r c) hsize hio

/-- Claim C5 witness: writing then reading `notes.txt` with content
`hello` round-trips byte-for-byte. -/
theorem C5_write_read_roundtrip_witness :
    safe_write_file envW fsEmpty "notes.txt" "hello"
      = .ok ({ status := .success, action := some "write_file",
               path := some "/ws/notes.txt",
               bytes_written := some ("hello").utf8ByteSize },
             fsSetFile fsEmpty "/ws/notes.txt" "hello")
    ∧ safe_read_file envW (fsSetFile fsEmpty "/ws/notes.txt" "hello") "notes.txt"
      = .ok { status := .success, action := some "read_file",
              path := some "/ws/notes.txt", content := some "hello",
              size_bytes := some ("hello").utf8ByteSize } :=
  C5_write_read_roundtrip envW fsEmpty "notes.txt" "hello" "/ws/notes.txt"
    (by rfl) (by rfl) (by rfl) (by rfl) (by decide)

/-- Claim C6, counterexample.  The claim states that exactly `limit` bytes
are read regardless of total file size; on a five-byte file a request for
1000 bytes returns only the five available bytes. -/
theorem C6_short_file_reads_fewer_cx :
    read_file_paged envW bfsW "test.txt" 0 1000 = .ok "Hello"
    ∧ ("Hello").length ≠ 1000 := by
  exact ⟨by rfl, by decide⟩

/-- Claim C6, amended.  Paged reads are pure byte-range reads: negative
offset and limit are clamped to zero; the bytes read are the slice
`C[offset : offset + limit]` — at most `limit` bytes, exactly
`min limit (size - offset)` — and splitting at any UTF-8 character
boundary `k` recomposes the full decoded content exactly. -/
theorem C6_paged_read_byte_semantics (env : Env) (bfs : ByteFS)
    (path resolved : String) (bytes : List Nat)
    (hg : env.guard_path_traversal path = .ok resolved)
    (hf : bfs.files.lookup resolved = some bytes) :
    (∀ k : Nat, k ≤ bytes.length → validUtf8 (bytes.take k) = true →
      ∃ s1 s2, read_file_paged env bfs path 0 (k : Int) = .ok s1
        ∧ read_file_paged env bfs path (k : Int)
            ((bytes.length - k : Nat) : Int) = .ok s2
        ∧ s1 ++ s2 = decodeUtf8Replace bytes) ∧
    (∀ off lim : Int, off < 0 →
      read_file_paged env bfs path off lim
        = read_file_paged env bfs path 0 lim) ∧
    (∀ off lim : Int, lim < 0 →
      read_file_paged env bfs path off lim
        = read_file_paged env bfs path off 0) ∧
    (∀ off lim : Nat,
      read_file_paged env bfs path (off : Int) (lim : Int)
        = .ok (decodeUtf8Replace ((bytes.drop off).take lim))
      ∧ ((bytes.drop off).take lim).length = min lim (bytes.length - off)) := by
  have hrun : ∀ off lim : Int, read_file_paged env bfs path off lim
      = .ok (decodeUtf8Replace
          ((bytes.drop (if off < 0 then (0 : Int) else off).toNat).take
            (if lim < 0 then (0 : Int) else lim).toNat)) := by
    intro off lim
    unfold read_file_paged
    simp [hg, ebind_ok, hf]
  refine ⟨?_, ?_, ?_, ?_⟩
  · intro k hk hval
    have hk0 : ¬ ((k : Int) < 0) := by omega
    have hlk0 : ¬ (((bytes.length - k : Nat) : Int) < 0) := by omega
    have h1 : read_file_paged env bfs path 0 (k : Int)
        = .ok (decodeUtf8Replace (bytes.take k)) := by
      rw [hrun]
      rw [if_neg (by omega : ¬ ((0 : Int) < 0)), if_neg hk0,
        Int.toNat_natCast]
      simp
    have h2 : read_file_paged env bfs path (k : Int)
        ((bytes.length - k : Nat) : Int)
        = .ok (decodeUtf8Replace (bytes.drop k)) := by
      rw [hrun]
      rw [if_neg hk0, if_neg hlk0, Int.toNat_natCast, Int.toNat_natCast]
      congr 1
      apply congrArg
      apply List.take_of_length_le
      simp [List.length_drop]
    refine ⟨_, _, h1, h2, ?_⟩
    rw [← decodeUtf8Replace_append _ _ hval, List.take_append_drop]
  · intro off lim hoff
    rw [hrun, hrun]
    rw [if_pos hoff, if_neg (by norm_num : ¬ ((0 : Int) < 0))]
  · intro off lim hlim
    rw [hrun, hrun]
    rw [if_pos hlim, if_neg (by norm_num : ¬ ((0 : Int) < 0))]
  · intro off lim
    have ho : ¬ ((off : Int) < 0) := by omega
    have hl : ¬ ((lim : Int) < 0) := by omega
    constructor
    · rw [hrun, if_neg ho, if_neg hl, Int.toNat_natCast, Int.toNat_natCast]
    · simp [List.length_take, List.length_drop]

/-- Claim C6, amended-theorem witness: splitting the five-byte file at
byte 2 recomposes the decoded content. -/
theorem C6_paged_read_byte_semantics_witness :
    ∃ s1 s2, read_file_paged envW bfsW "test.txt" 0 ((2 : Nat) : Int) = .ok s1
      ∧ read_file_paged envW bfsW "test.txt" ((2 : Nat) : Int)
          ((([72, 101, 108, 108, 111] : List Nat).length - 2 : Nat) : Int)
          = .ok s2
      ∧ s1 ++ s2 = decodeUtf8Replace [72, 101, 108, 108, 111] :=
  (C6_paged_read_byte_semantics envW bfsW "test.txt" "/ws/test.txt"
      [72, 101, 108, 108, 111] (by rfl) (by rfl)).1 2 (by decide) (by decide)

/-- Claim C7.  `safe_read_file` answers `error` for a missing path and for
a non-file target, `blocked` with the actual size and the 1048576-byte
limit in the reason for an oversized file, and `success` with the full
content and size otherwise (when the OS read succeeds). -/
theorem C7_read_file_outcomes (env : Env) (fs : FileSys) (p r : String)
    (hg : env.guard_path_traversal p = .ok r) :
    (fsExists fs r = false →
      safe_read_file env fs p
        = .ok { status := .error, action := some "read_file",
                reason := some ("File not found: " ++ p) }) ∧
    (fsLookup fs r = none → fs.dirs.contains r = true →
      safe_read_file env fs p
        = .ok { status := .error, action := some "read_file",
                reason := some ("Path is not a file: " ++ p) }) ∧
    (∀ c, fsLookup fs r = some c →
      c.utf8ByteSize > _MAX_READ_SIZE_BYTES →
      safe_read_file env fs p
        = .ok { status := .blocked, action := some "read_file",
                reason := some ("File too large (" ++ toString c.utf8ByteSize
                  ++ " bytes). Max: " ++ toString _MAX_READ_SIZE_BYTES
                  ++ " bytes."),
                violator := some p }) ∧
    (∀ c, fsLookup fs r = some c →
      c.utf8ByteSize ≤ _MAX_READ_SIZE_BYTES → fs.ioFail.contains r = false →
      safe_read_file env fs p
        = .ok { status := .success, action := some "read_file",
                path := some r, content := some c,
                size_bytes := some c.utf8ByteSize }) := by
  refine ⟨?_, ?_, ?_, ?_⟩
  · intro hex
    have hbody : readBody env fs p
        = .ok { status := .error, action := some "read_file",
                reason := some ("File not found: " ++ p) } := by
      unfold readBody
      simp [hg, ebind_ok, hex, epure]
    unfold safe_read_file
    rw [hbody]
  · intro hf hd
    have hbody : readBody env fs p
        = .ok { status := .error, action := some "read_file",
                reason := some ("Path is not a file: " ++ p) } := by
      have hd2 : r ∈ fs.dirs := by simpa using hd
      unfold readBody
      simp [hg, ebind_ok, fsExists, fsIsFile, hf, hd2, epure]
    unfold safe_read_file
    rw [hbody]
  · intro c hf hbig
    have hbody : readBody env fs p
        = .ok { status := .blocked, action := some "read_file",
                reason := some ("File too large (" ++ toString c.utf8ByteSize
                  ++ " bytes). Max: " ++ toString _MAX_READ_SIZE_BYTES
                  ++ " bytes."),
                violator := some p } := by
      unfold readBody
      simp [hg, ebind_ok, fsExists, fsIsFile, hf, hbig, epure]
    unfold safe_read_file
    rw [hbody]
  · intro c hf hsize hio
    exact safe_read_file_success env fs p r c hg hf hsize hio

/-- Claim C7 witness: a missing file answers `error` and a present small
file answers `success` with content and size. -/
theorem C7_read_file_outcomes_witness :
    safe_read_file envW fsOne "missing.txt"
      = .ok { status := .error, action := some "read_file",
              reason := some "File not found: missing.txt" }
    ∧ safe_read_file envW fsOne "a.txt"
      = .ok { status := .success, action := some "read_file",
              path := some "/ws/a.txt", content := some "hi",
              size_bytes := some ("hi").utf8ByteSize } := by
  constructor
  · exact (C7_read_file_outcomes envW fsOne "missing.txt" "/ws/missing.txt"
      (by rfl)).1 (by rfl)
  · exact (C7_read_file_outcomes envW fsOne "a.txt" "/ws/a.txt"
      (by rfl)).2.2.2 "hi" (by rfl) (by decide) (by rfl)

/-- Claim C8.  `safe_web_request` blocks every method whose uppercasing is
neither GET nor HEAD before looking at the URL; a successful response body
is truncated to the 51200-character cap even when fully successful; an
httpx timeout is reported as `error`. -/
theorem C8_web_request_method_cap_timeout (env : Env) (url method : String) :
    (strUpper method ≠ "GET" → strUpper method ≠ "HEAD" →
      safe_web_request env url method
        = .ok { status := .blocked, action := some "web_request",
                reason := some ("HTTP method \x27" ++ strUpper method
                  ++ "\x27 not allowed. Only GET and HEAD are permitted."),
                violator := some (strUpper method) }) ∧
    (∀ validated resp,
      validate_url env url none = .ok validated →
      env.httpRequest (strUpper method) validated = .ok resp →
      (strUpper method = "GET" ∨ strUpper method = "HEAD") →
      safe_web_request env url method
        = .ok { status := .success, action := some "web_request",
                url := some validated, method := some (strUpper method),
                status_code := some resp.status_code,
                content := some (strTake resp.text _MAX_RESPONSE_BODY) }
        ∧ (strTake resp.text _MAX_RESPONSE_BODY).length
            ≤ _MAX_RESPONSE_BODY) ∧
    (∀ validated e,
      validate_url env url none = .ok validated →
      env.httpRequest (strUpper method) validated = .error e →
      catches .timeoutException e.cls = true →
      (strUpper method = "GET" ∨ strUpper method = "HEAD") →
      safe_web_request env url method
        = .ok { status := .error, action := some "web_request",
                reason := some "Request timed out after 10s",
                violator := some url }) := by
  refine ⟨?_, ?_, ?_⟩
  · intro h1 h2
    have hcond : ¬ (strUpper method = "GET" ∨ strUpper method = "HEAD") := by
      rintro (h | h)
      · exact h1 h
      · exact h2 h
    unfold safe_web_request
    rw [if_pos hcond]
  · intro validated resp hv hreq hor
    have hcond : ¬ ¬ (strUpper method = "GET" ∨ strUpper method = "HEAD") :=
      not_not_intro hor
    constructor
    · unfold safe_web_request
      rw [if_neg hcond]
      simp [hv, hreq]
    · exact strTake_le resp.text _MAX_RESPONSE_BODY
  · intro validated e hv hreq hto hor
    have hcond : ¬ ¬ (strUpper method = "GET" ∨ strUpper method = "HEAD") :=
      not_not_intro hor
    unfold safe_web_request
    rw [if_neg hcond]
    simp [hv, hreq, hto]

/-- Claim C8 witness: POST is blocked independently of the target, and a
lowercase `get` on a public address succeeds with the (short, hence
untruncated) body. -/
theorem C8_web_request_method_cap_timeout_witness :
    safe_web_request envW "https://example.com" "POST"
      = .ok { status := .blocked, action := some "web_request",
              reason := some ("HTTP method \x27POST\x27 not allowed. "
                ++ "Only GET and HEAD are permitted."),
              violator := some "POST" }
    ∧ safe_web_request envHttp "https://8.8.8.8/" "get"
      = .ok { status := .success, action := some "web_request",
              url := some "https://8.8.8.8/", method := some "GET",
              status_code := some 200,
              content := some "Example Domain" } := by
  constructor
  · exact (C8_web_request_method_cap_timeout envW "https://example.com"
      "POST").1 (by decide) (by decide)
  · exact ((C8_web_request_method_cap_timeout envHttp "https://8.8.8.8/"
      "get").2.1 "https://8.8.8.8/" respOk (by rfl) (by rfl)
      (Or.inl (by rfl))).1

/-- Claim C9, counterexample.  The claim states that an empty
`command_parts` list submitted to the execute-command action is refused as
`blocked`; the router instead rejects it in its parameter-shape check with
status `error`, before any injection validation runs. -/
theorem C9_empty_command_error_cx :
    validate_intent envW DEFAULT_COMMAND_ALLOWLIST fsEmpty "execute_command"
      [("command_parts", .vlist [])]
      = .ok ({ status := .error,
               reason := some ("Action \x27execute_command\x27 requires a non-empty "
                 ++ "\x27command_parts\x27 list.") }, fsEmpty)
    ∧ Status.error ≠ Status.blocked := by
  exact ⟨by rfl, by decide⟩

/-- Claim C9, amended.  An empty `command_parts` list sent through
`validate_intent` yields a parameter-shape `error`; only a direct
`safe_execute_command` call reaches the injection-and-allowlist pass,
whose `SecurityError` on an empty list is then surfaced as `blocked`. -/
theorem C9_empty_command_parts (env : Env) (allowlist : List String)
    (fs : FileSys) (params : List (String × PyVal))
    (hl : pget params "command_parts" = .vlist []) :
    validate_intent env allowlist fs "execute_command" params
      = .ok ({ status := .error,
               reason := some ("Action \x27execute_command\x27 requires a non-empty "
                 ++ "\x27command_parts\x27 list.") }, fs)
    ∧ (∀ e, env.guard_command_injection [] allowlist = .error e →
        catches .securityError e.cls = true →
        safe_execute_command env allowlist []
          = .ok { status := .blocked, action := some "execute_command",
                  reason := some e.msg,
                  violator := some (pyOrStr e.value "") }) := by
  constructor
  · have hstep : validate_intent env allowlist fs "execute_command" params
        = (match pget params "command_parts" with
          | .vlist l =>
            if l.isEmpty then
              .ok ({ status := .error,
                     reason := some ("Action \x27execute_command\x27 requires a non-empty "
                       ++ "\x27command_parts\x27 list.") }, fs)
            else (safe_execute_command env allowlist l).map (fun r => (r, fs))
          | _ =>
            .ok ({ status := .error,
                   reason := some ("Action \x27execute_command\x27 requires a non-empty "
                     ++ "\x27command_parts\x27 list.") }, fs)) := rfl
    rw [hstep, hl]
    rfl
  · intro e hge hcls
    have hbody : execBody env allowlist [] = .error e := by
      unfold execBody
      simp [hge, ebind_error]
    have hc : catches .securityError e.cls = true := by rw [hcls]
    unfold safe_execute_command
    rw [hbody]
    simp [hc, headStr]

/-- Claim C9, amended-theorem witness: the router answers `error` on the
empty list while the direct guard call answers `blocked`. -/
theorem C9_empty_command_parts_witness :
    validate_intent envInj DEFAULT_COMMAND_ALLOWLIST fsEmpty "execute_command"
      [("command_parts", .vlist [])]
      = .ok ({ status := .error,
               reason := some ("Action \x27execute_command\x27 requires a non-empty "
                 ++ "\x27command_parts\x27 list.") }, fsEmpty)
    ∧ safe_execute_command envInj DEFAULT_COMMAND_ALLOWLIST []
      = .ok { status := .blocked, action := some "execute_command",
              reason := some "Empty command list", violator := some "" } := by
  have h := C9_empty_command_parts envInj DEFAULT_COMMAND_ALLOWLIST fsEmpty
    [("command_parts", .vlist [])] (by rfl)
  exact ⟨h.1, h.2 _ (by rfl) (by rfl)⟩

/-- Claim C10.  The write-file router branch requires only a string `path`
and a non-None `content`: a missing or None content (or a non-string path)
yields a parameter `error`, while any non-None content — an integer, for
example — is coerced with `str()` and dispatched to `safe_write_file`,
succeeding under a benign guard. -/
theorem C10_write_file_param_coercion (env : Env) (allowlist : List String)
    (fs : FileSys) (params : List (String × PyVal)) :
    (∀ p, pget params "path" = .vstr p → pget params "content" = .vnone →
      validate_intent env allowlist fs "write_file" params
        = .ok ({ status := .error,
                 reason := some ("Action \x27write_file\x27 requires string \x27path\x27 "
                   ++ "and \x27content\x27 parameters.") }, fs)) ∧
    (isVStr (pget params "path") = false →
      validate_intent env allowlist fs "write_file" params
        = .ok ({ status := .error,
                 reason := some ("Action \x27write_file\x27 requires string \x27path\x27 "
                   ++ "and \x27content\x27 parameters.") }, fs)) ∧
    (∀ p v, pget params "path" = .vstr p → pget params "content" = v →
      isVNone v = false →
      validate_intent env allowlist fs "write_file" params
        = safe_write_file env fs p (pyStr v)) ∧
    (∀ p n r, pget params "path" = .vstr p →
      pget params "content" = .vint n →
      env.guard_path_traversal (sanitisedPathOf env p) = .ok r →
      fs.ioFail.contains r = false → fs.dirs.contains r = false →
      validate_intent env allowlist fs "write_file" params
        = .ok ({ status := .success, action := some "write_file",
                 path := some r,
                 bytes_written := some (toString n).utf8ByteSize },
               fsSetFile fs r (toString n))) := by
  have hstep : validate_intent env allowlist fs "write_file" params
      = (match pget params "path", pget params "content" with
        | .vstr p, content =>
          if isVNone content then
            .ok ({ status := .error,
                   reason := some ("Action \x27write_file\x27 requires string \x27path\x27 "
                     ++ "and \x27content\x27 parameters.") }, fs)
          else safe_write_file env fs p (pyStr content)
        | _, _ =>
          .ok ({ status := .error,
                 reason := some ("Action \x27write_file\x27 requires string \x27path\x27 "
                   ++ "and \x27content\x27 parameters.") }, fs)) := rfl
  refine ⟨?_, ?_, ?_, ?_⟩
  · intro p hp hc
    rw [hstep, hp, hc]
    rfl
  · intro hns
    cases hpv : pget params "path" with
    | vstr s => rw [hpv] at hns; simp [isVStr] at hns
    | vint n => rw [hstep, hpv]
    | vbool b => rw [hstep, hpv]
    | vnone => rw [hstep, hpv]
    | vlist l => rw [hstep, hpv]
  · intro p v hp hc hv
    rw [hstep, hp, hc]
    simp [hv]
  · intro p n r hp hc hg hio hdir
    rw [hstep, hp, hc]
    exact safe_write_file_success env fs p (toString n) r hg hio hdir

/-- Claim C10 witness: integer content 42 is coerced to the two-byte text
`42` and written successfully. -/
theorem C10_write_file_param_coercion_witness :
    validate_intent envW DEFAULT_COMMAND_ALLOWLIST fsEmpty "write_file"
      [("path", .vstr "a.txt"), ("content", .vint 42)]
      = .ok ({ status := .success, action := some "write_file",
               path := some "/ws/a.txt",
               bytes_written := some (toString (42 : Int)).utf8ByteSize },
             fsSetFile fsEmpty "/ws/a.txt" (toString (42 : Int))) :=
  (C10_write_file_param_coercion envW DEFAULT_COMMAND_ALLOWLIST fsEmpty
      [("path", .vstr "a.txt"), ("content", .vint 42)]).2.2.2
    "a.txt" 42 "/ws/a.txt" (by rfl) (by rfl) (by rfl) (by rfl) (by rfl)

end BasalGuard
